import Mathlib

/-!
Verification of the event-schedule logic of `src/main.py` (an HTTP service
reporting active and upcoming in-game events).  The shallow embedding below
translates the duration-formatting blocks, the exact-window evaluator
`_get_events_exact`, the daily-schedule evaluator `_get_events_schedule`
(with the function-scoped `end_time_for_comparison` local threaded
explicitly, since Python function scoping makes it persist across loop
iterations), the fetch dispatcher `get_arc_raiders_events_from_api_schedule`
and the `/api/user_events` handler.  Instants are modelled exactly: epoch
milliseconds for the exact evaluator, whole seconds after midnight for the
daily evaluator (parsed HH:MM values are minutes).  Python `divmod` with the
positive divisors 3600 and 60 is floor division, i.e. `Int` `/` and `%`
(`Int.ediv`/`Int.emod`); Python `int()` applied to `timedelta.total_seconds()`
truncates toward zero, i.e. `Int.tdiv`.
-/

/-- A classified event as appended to the `active`/`upcoming` buckets:
the dict `{'name': ..., 'location': ..., 'time_left': ...}`. -/
structure ClassifiedEvent where
  name : String
  location : String
  time_left : String
deriving DecidableEq

/-- One entry of a scheduled event's `times` list: a dict that may hold
`start` and `end` HH:MM strings (an absent key is `none`). -/
structure TimeWindow where
  start : Option String
  end_ : Option String
deriving DecidableEq

/-- A raw event record from the schedule API: a dict whose keys may be
absent (`none`).  `startTime`/`endTime` are epoch milliseconds. -/
structure RawEvent where
  name : Option String
  map : Option String
  startTime : Option Int
  endTime : Option Int
  times : Option (List TimeWindow)
deriving DecidableEq

/-- The inline duration-formatting block at lines 93-100 of `src/main.py`
(exact evaluator, active branch): `divmod` into hours/minutes/seconds,
then join the positive tokens; the seconds token is kept when `time_parts`
is still empty. -/
def time_left_str_exact_active (total_seconds : Int) : String :=
  let hours := total_seconds / 3600
  let remainder := total_seconds % 3600
  let minutes := remainder / 60
  let seconds := remainder % 60
  let time_parts : List String := []
  let time_parts := if hours > 0 then time_parts ++ [toString hours ++ "ч"] else time_parts
  let time_parts := if minutes > 0 then time_parts ++ [toString minutes ++ "м"] else time_parts
  let time_parts := if seconds > 0 ∨ time_parts = [] then time_parts ++ [toString seconds ++ "с"] else time_parts
  String.intercalate " " time_parts

/-- The identical block at lines 112-119 (exact evaluator, upcoming branch). -/
def time_left_str_exact_upcoming (total_seconds : Int) : String :=
  let hours := total_seconds / 3600
  let remainder := total_seconds % 3600
  let minutes := remainder / 60
  let seconds := remainder % 60
  let time_parts : List String := []
  let time_parts := if hours > 0 then time_parts ++ [toString hours ++ "ч"] else time_parts
  let time_parts := if minutes > 0 then time_parts ++ [toString minutes ++ "м"] else time_parts
  let time_parts := if seconds > 0 ∨ time_parts = [] then time_parts ++ [toString seconds ++ "с"] else time_parts
  String.intercalate " " time_parts

/-- The identical block at lines 177-184 (daily evaluator, same-day active
branch, also used by the "24:00"-sentinel active case). -/
def time_left_str_daily_sameday (total_seconds : Int) : String :=
  let hours := total_seconds / 3600
  let remainder := total_seconds % 3600
  let minutes := remainder / 60
  let seconds := remainder % 60
  let time_parts : List String := []
  let time_parts := if hours > 0 then time_parts ++ [toString hours ++ "ч"] else time_parts
  let time_parts := if minutes > 0 then time_parts ++ [toString minutes ++ "м"] else time_parts
  let time_parts := if seconds > 0 ∨ time_parts = [] then time_parts ++ [toString seconds ++ "с"] else time_parts
  String.intercalate " " time_parts

/-- The identical block at lines 202-209 (daily evaluator, overnight active
branch). -/
def time_left_str_daily_overnight (total_seconds : Int) : String :=
  let hours := total_seconds / 3600
  let remainder := total_seconds % 3600
  let minutes := remainder / 60
  let seconds := remainder % 60
  let time_parts : List String := []
  let time_parts := if hours > 0 then time_parts ++ [toString hours ++ "ч"] else time_parts
  let time_parts := if minutes > 0 then time_parts ++ [toString minutes ++ "м"] else time_parts
  let time_parts := if seconds > 0 ∨ time_parts = [] then time_parts ++ [toString seconds ++ "с"] else time_parts
  String.intercalate " " time_parts

/-- The identical block at lines 240-247 (daily evaluator, upcoming branch). -/
def time_left_str_daily_upcoming (total_seconds : Int) : String :=
  let hours := total_seconds / 3600
  let remainder := total_seconds % 3600
  let minutes := remainder / 60
  let seconds := remainder % 60
  let time_parts : List String := []
  let time_parts := if hours > 0 then time_parts ++ [toString hours ++ "ч"] else time_parts
  let time_parts := if minutes > 0 then time_parts ++ [toString minutes ++ "м"] else time_parts
  let time_parts := if seconds > 0 ∨ time_parts = [] then time_parts ++ [toString seconds ++ "с"] else time_parts
  String.intercalate " " time_parts

/-- The shared duration formatter the spec's section 4.1 describes, against
which the five inline copies are compared. -/
def formatDuration (total_seconds : Int) : String :=
  let hours := total_seconds / 3600
  let remainder := total_seconds % 3600
  let minutes := remainder / 60
  let seconds := remainder % 60
  let time_parts : List String := []
  let time_parts := if hours > 0 then time_parts ++ [toString hours ++ "ч"] else time_parts
  let time_parts := if minutes > 0 then time_parts ++ [toString minutes ++ "м"] else time_parts
  let time_parts := if seconds > 0 ∨ time_parts = [] then time_parts ++ [toString seconds ++ "с"] else time_parts
  String.intercalate " " time_parts

/-- Python `int(td.total_seconds())` for a timedelta of `ms` whole
milliseconds: division by 1000 truncated toward zero. -/
def int_total_seconds_ms (ms : Int) : Int := Int.tdiv ms 1000

/-- One iteration of the event loop of `_get_events_exact` (lines 77-130):
`some (Sum.inl c)` appends `c` to the active bucket, `some (Sum.inr c)` to
the upcoming bucket, `none` skips the event (missing or falsy timestamp, or
the event already ended).  Instants are epoch milliseconds. -/
def exactEventStep (current_time_utc : Int) (event_obj : RawEvent) :
    Option (Sum ClassifiedEvent ClassifiedEvent) :=
  let name := event_obj.name.getD "Unknown Event"
  let location := event_obj.map.getD "Unknown Location"
  match event_obj.startTime, event_obj.endTime with
  | some start_timestamp_ms, some end_timestamp_ms =>
    if start_timestamp_ms = 0 ∨ end_timestamp_ms = 0 then none
    else if start_timestamp_ms ≤ current_time_utc ∧ current_time_utc < end_timestamp_ms then
      some (Sum.inl ⟨name, location,
        time_left_str_exact_active (int_total_seconds_ms (end_timestamp_ms - current_time_utc))⟩)
    else if start_timestamp_ms > current_time_utc then
      some (Sum.inr ⟨name, location,
        time_left_str_exact_upcoming (int_total_seconds_ms (start_timestamp_ms - current_time_utc))⟩)
    else none
  | _, _ => none

/-- `_get_events_exact(raw_events)` at current instant `current_time_utc`
(epoch milliseconds): the (active, upcoming) buckets in input order. -/
def _get_events_exact (current_time_utc : Int) :
    List RawEvent → List ClassifiedEvent × List ClassifiedEvent
  | [] => ([], [])
  | event_obj :: rest =>
    let p := _get_events_exact current_time_utc rest
    match exactEventStep current_time_utc event_obj with
    | some (Sum.inl c) => (c :: p.1, p.2)
    | some (Sum.inr c) => (p.1, c :: p.2)
    | none => p

/-- One field of `strptime(s, '%H:%M')`: one or two decimal digits. -/
def parseTimeField : List Char → Option Nat
  | [a] => if a.isDigit then some (a.toNat - 48) else none
  | [a, b] => if a.isDigit ∧ b.isDigit then some ((a.toNat - 48) * 10 + (b.toNat - 48)) else none
  | _ => none

/-- `datetime.strptime(s, '%H:%M').time()` as minutes after midnight: two
digit fields separated by ':', hour 0-23, minute 0-59.  `none` when
`strptime` raises — in particular for the literal "24:00". -/
def parseHHMM (s : String) : Option Nat :=
  match s.data.splitOn ':' with
  | [hpart, mpart] =>
    match parseTimeField hpart, parseTimeField mpart with
    | some h, some m => if h ≤ 23 ∧ m ≤ 59 then some (h * 60 + m) else none
    | _, _ => none
  | _ => none

/-- The loop state of `_get_events_schedule`: the two buckets plus the
function-scoped Python local `end_time_for_comparison`, which is assigned
only when a non-sentinel end string parses (line 161) and therefore persists
across windows and events; reading it before any assignment — which line 163
does whenever a "24:00" window is reached first — raises `UnboundLocalError`,
caught by the per-window handler at line 256. -/
structure DailyState where
  end_time_for_comparison : Option Nat
  active : List ClassifiedEvent
  upcoming : List ClassifiedEvent
deriving DecidableEq

/-- `active_events.append(...)` in the daily evaluator. -/
def pushActive (st : DailyState) (c : ClassifiedEvent) : DailyState :=
  { st with active := st.active ++ [c] }

/-- `upcoming_events.append(...)` in the daily evaluator. -/
def pushUpcoming (st : DailyState) (c : ClassifiedEvent) : DailyState :=
  { st with upcoming := st.upcoming ++ [c] }

/-- One iteration of the window loop of `_get_events_schedule`
(lines 149-258).  `now_sod` is the current time of day in whole seconds
after midnight; parsed HH:MM values are minutes, hence the `* 60` in every
comparison with `now_sod`.  Durations come from datetime subtraction within
today/tomorrow, so they are exact whole-second counts.  A window whose end
is the "24:00" sentinel evaluates line 163's left operand first: if
`end_time_for_comparison` was never assigned this raises `UnboundLocalError`
and the window is skipped; if it was assigned, the stale value is compared
and discarded (`or` makes the branch condition true either way). -/
def scheduleWindowStep (now_sod : Nat) (name location : String)
    (time_window : TimeWindow) (st : DailyState) : DailyState :=
  match time_window.start, time_window.end_ with
  | some start_str, some end_str =>
    if start_str = "" ∨ end_str = "" then st
    else
      match parseHHMM start_str with
      | none => st
      | some start_time =>
        if end_str = "24:00" then
          match st.end_time_for_comparison with
          | none => st
          | some _ =>
            if start_time * 60 ≤ now_sod then
              pushActive st ⟨name, location,
                time_left_str_daily_sameday ((86400 : Int) - now_sod)⟩
            else if now_sod < start_time * 60 then
              pushUpcoming st ⟨name, location,
                time_left_str_daily_upcoming ((start_time * 60 : Int) - now_sod)⟩
            else
              pushUpcoming st ⟨name, location,
                time_left_str_daily_upcoming ((86400 + start_time * 60 : Int) - now_sod)⟩
        else
          match parseHHMM end_str with
          | none => st
          | some end_time =>
            let st := { st with end_time_for_comparison := some end_time }
            if start_time ≤ end_time then
              if start_time * 60 ≤ now_sod ∧ now_sod < end_time * 60 then
                pushActive st ⟨name, location,
                  time_left_str_daily_sameday ((end_time * 60 : Int) - now_sod)⟩
              else if now_sod < start_time * 60 then
                pushUpcoming st ⟨name, location,
                  time_left_str_daily_upcoming ((start_time * 60 : Int) - now_sod)⟩
              else
                pushUpcoming st ⟨name, location,
                  time_left_str_daily_upcoming ((86400 + start_time * 60 : Int) - now_sod)⟩
            else
              if start_time * 60 ≤ now_sod ∨ now_sod < end_time * 60 then
                if start_time * 60 ≤ now_sod then
                  pushActive st ⟨name, location,
                    time_left_str_daily_overnight ((86400 + end_time * 60 : Int) - now_sod)⟩
                else
                  pushActive st ⟨name, location,
                    time_left_str_daily_overnight ((end_time * 60 : Int) - now_sod)⟩
              else
                if now_sod < start_time * 60 ∧ end_time * 60 ≤ now_sod then
                  pushUpcoming st ⟨name, location,
                    time_left_str_daily_upcoming ((start_time * 60 : Int) - now_sod)⟩
                else
                  pushUpcoming st ⟨name, location,
                    time_left_str_daily_upcoming ((86400 + start_time * 60 : Int) - now_sod)⟩
  | _, _ => st

/-- One iteration of the outer event loop of `_get_events_schedule`
(lines 144-258): default the name/location and fold the window loop. -/
def scheduleEventStep (now_sod : Nat) (event_obj : RawEvent) (st : DailyState) : DailyState :=
  (event_obj.times.getD []).foldl
    (fun s tw => scheduleWindowStep now_sod (event_obj.name.getD "Unknown Event")
      (event_obj.map.getD "Unknown Location") tw s) st

/-- `_get_events_schedule(raw_events)` at current time of day `now_sod`
(seconds after midnight): the (active, upcoming) buckets. -/
def _get_events_schedule (now_sod : Nat) (raw_events : List RawEvent) :
    List ClassifiedEvent × List ClassifiedEvent :=
  let final := raw_events.foldl (fun st event_obj => scheduleEventStep now_sod event_obj st)
    ⟨none, [], []⟩
  (final.active, final.upcoming)

/-- Outcome of `requests.get` + `raise_for_status` + `.json()` +
`data.get('data', [])`: either some exception (a `RequestException` or any
other transport/decode error) or the decoded raw event list. -/
inductive FetchOutcome where
  | failure (msg : String)
  | success (raw_events : List RawEvent)
deriving DecidableEq

/-- The fetch/decode stage of `get_arc_raiders_events_from_api_schedule`
as an `Except`: the `try` body up to line 49. -/
def fetchSchedule : FetchOutcome → Except String (List RawEvent)
  | .failure m => .error m
  | .success raw_events => .ok raw_events

/-- `get_arc_raiders_events_from_api_schedule()` (lines 39-68): both
`except` clauses turn any fetch/decode failure into `([], [])`; on success
the first element's keys choose the evaluator.  `now_ms` feeds the exact
evaluator and `now_sod` the daily evaluator (both read `datetime.now`). -/
def get_arc_raiders_events_from_api_schedule (now_ms : Int) (now_sod : Nat)
    (o : FetchOutcome) : List ClassifiedEvent × List ClassifiedEvent :=
  match fetchSchedule o with
  | .error _ => ([], [])
  | .ok raw_events =>
    match raw_events with
    | [] => ([], [])
    | first :: _ =>
      if first.startTime.isSome ∧ first.endTime.isSome then
        _get_events_exact now_ms raw_events
      else if first.times.isSome then
        _get_events_schedule now_sod raw_events
      else ([], [])

/-- The JSON body `/api/user_events` answers with: either the
`{"active": ..., "upcoming": ...}` dict or the
`{"error": "Internal Server Error"}` payload of the `except` branch. -/
inductive ApiResponse where
  | ok (active upcoming : List ClassifiedEvent)
  | internalError
deriving DecidableEq

/-- The handler `api_user_events` (lines 266-280): its `try` body calls the
dispatcher — a total function, mirrored here as an always-`ok` `Except`
value — and the `except` branch maps any error to the internal-error
payload. -/
def api_user_events (now_ms : Int) (now_sod : Nat) (o : FetchOutcome) : ApiResponse :=
  match (Except.ok (get_arc_raiders_events_from_api_schedule now_ms now_sod o) :
      Except String (List ClassifiedEvent × List ClassifiedEvent)) with
  | .ok p => ApiResponse.ok p.1 p.2
  | .error _ => ApiResponse.internalError

/-- A string of positive length is not the empty string. -/
lemma strNeEmptyOfLengthPos {s : String} (h : 0 < s.length) : s ≠ "" := by
  intro he
  rw [he] at h
  exact absurd h (by decide)

/-- The accumulator's length never shrinks along `String.intercalate.go`. -/
lemma intercalateGoLengthLe (s : String) :
    ∀ (as : List String) (acc : String), acc.length ≤ (String.intercalate.go acc s as).length := by
  intro as
  induction as with
  | nil => intro acc; simp [String.intercalate.go]
  | cons b bs ih =>
    intro acc
    have h1 : acc.length ≤ (acc ++ s ++ b).length := by
      simp [String.length_append]
      omega
    calc acc.length ≤ (acc ++ s ++ b).length := h1
      _ ≤ (String.intercalate.go (acc ++ s ++ b) s bs).length := ih (acc ++ s ++ b)
      _ = (String.intercalate.go acc s (b :: bs)).length := by
            simp [String.intercalate.go]

/-- Joining a list whose head is nonempty yields a nonempty string. -/
lemma intercalateNeEmpty (a : String) (l : List String) (ha : 0 < a.length) :
    String.intercalate " " (a :: l) ≠ "" := by
  apply strNeEmptyOfLengthPos
  have h2 : String.intercalate " " (a :: l) = String.intercalate.go a " " l := by
    simp [String.intercalate]
  rw [h2]
  have h := intercalateGoLengthLe " " l a
  omega

/-- A rendered-number token (digits plus a unit letter) is nonempty. -/
lemma tokenLengthPos (v : Int) (suf : String) (h : 0 < suf.length) :
    0 < (toString v ++ suf).length := by
  simp [String.length_append]
  omega

/-- C5: for every non-negative whole number of seconds, `formatDuration`
decomposes it into hours, minutes and seconds by truncating integer
division, emits the tokens in the fixed order hours-minutes-seconds, omits
zero-valued tokens except that the seconds token is kept when hours and
minutes are both zero, joins them with single spaces, and is never empty;
`format 0 = "0с"`, `format 90 = "1м 30с"`, `format 3661 = "1ч 1м 1с"`. -/
theorem C5_formatter_decomposition (s : Int) (h : 0 ≤ s) :
    formatDuration s =
      String.intercalate " "
        ((if s / 3600 > 0 then [toString (s / 3600) ++ "ч"] else []) ++
         (if s % 3600 / 60 > 0 then [toString (s % 3600 / 60) ++ "м"] else []) ++
         (if s % 60 > 0 ∨ (s / 3600 = 0 ∧ s % 3600 / 60 = 0)
          then [toString (s % 60) ++ "с"] else [])) ∧
    formatDuration s ≠ "" ∧
    formatDuration 0 = "0с" ∧ formatDuration 90 = "1м 30с" ∧ formatDuration 3661 = "1ч 1м 1с" := by
  have hmod : s % 3600 % 60 = s % 60 := by omega
  refine ⟨?_, ?_, by decide, by decide, by decide⟩
  · unfold formatDuration
    by_cases h1 : s / 3600 > 0 <;> by_cases h2 : s % 3600 / 60 > 0 <;>
      by_cases h3 : s % 60 > 0
    · simp only [hmod, h1, h2, h3, if_true, List.nil_append, List.cons_append,
        true_or, List.append_nil, List.append_assoc]
    · have hn : ¬(s / 3600 = 0 ∧ s % 3600 / 60 = 0) := by omega
      simp only [hmod, h1, h2, h3, hn, if_true, if_false, List.nil_append, List.cons_append,
        List.append_nil, false_or, List.append_assoc]
      simp
    · simp only [hmod, h1, h2, h3, if_true, if_false, List.nil_append, List.cons_append,
        List.append_nil, true_or, List.append_assoc]
    · have hn : ¬(s / 3600 = 0 ∧ s % 3600 / 60 = 0) := by omega
      simp only [hmod, h1, h2, h3, hn, if_true, if_false, List.nil_append, List.cons_append,
        List.append_nil, false_or, List.append_assoc]
      simp
    · simp only [hmod, h1, h2, h3, if_true, if_false, List.nil_append, List.cons_append,
        List.append_nil, true_or, List.append_assoc]
    · have hn : ¬(s / 3600 = 0 ∧ s % 3600 / 60 = 0) := by omega
      simp only [hmod, h1, h2, h3, hn, if_true, if_false, List.nil_append, List.cons_append,
        List.append_nil, false_or, List.append_assoc]
      simp
    · simp only [hmod, h1, h2, h3, if_true, if_false, List.nil_append, List.cons_append,
        List.append_nil, true_or, List.append_assoc]
    · have e1 : s / 3600 = 0 := by omega
      have e2 : s % 3600 / 60 = 0 := by omega
      simp only [hmod, h1, h2, h3, if_true, if_false, List.nil_append, List.cons_append,
        List.append_nil, false_or, e1, e2, List.append_assoc]
      simp
  · unfold formatDuration
    by_cases h1 : s / 3600 > 0 <;> by_cases h2 : s % 3600 / 60 > 0 <;>
      by_cases h3 : s % 3600 % 60 > 0 <;>
      simp only [h1, h2, h3, if_true, if_false, List.nil_append, List.cons_append,
        List.append_nil, true_or, false_or, List.append_assoc, List.cons_ne_nil, or_false] <;>
      exact intercalateNeEmpty _ _ (tokenLengthPos _ _ (by decide))

/-- C5 witness: the hypothesis `0 ≤ s` discharged at `s = 3661`. -/
theorem C5_formatter_decomposition_witness :
    formatDuration 3661 = "1ч 1м 1с" :=
  (C5_formatter_decomposition 3661 (by decide)).2.2.2.2

/-- C9: the internal-failure branch of `/api/user_events` is unreachable:
for every fetch outcome the handler returns the active/upcoming shape
produced by the dispatcher and never the internal-error payload, because the
dispatcher catches every failure itself and always returns a pair of
buckets. -/
theorem C9_internal_error_unreachable (now_ms : Int) (now_sod : Nat) (o : FetchOutcome) :
    api_user_events now_ms now_sod o =
      ApiResponse.ok (get_arc_raiders_events_from_api_schedule now_ms now_sod o).1
        (get_arc_raiders_events_from_api_schedule now_ms now_sod o).2 ∧
    api_user_events now_ms now_sod o ≠ ApiResponse.internalError := by
  refine ⟨rfl, ?_⟩
  intro hcontra
  exact ApiResponse.noConfusion hcontra

/-- C10: the five inline duration-formatting blocks (exact-active,
exact-upcoming, daily same-day active, daily overnight active, daily
upcoming) all compute the same function, equal to the shared formatter. -/
theorem C10_formatting_blocks_equal (s : Int) :
    time_left_str_exact_active s = formatDuration s ∧
    time_left_str_exact_upcoming s = formatDuration s ∧
    time_left_str_daily_sameday s = formatDuration s ∧
    time_left_str_daily_overnight s = formatDuration s ∧
    time_left_str_daily_upcoming s = formatDuration s :=
  ⟨rfl, rfl, rfl, rfl, rfl⟩

/-- The exact evaluator is the pair of order-preserving `filterMap`s of the
per-event classifier over the batch. -/
lemma get_events_exact_eq_filterMap (now : Int) (raw : List RawEvent) :
    _get_events_exact now raw =
      (raw.filterMap (fun x => match exactEventStep now x with
          | some (Sum.inl c) => some c
          | _ => none),
       raw.filterMap (fun x => match exactEventStep now x with
          | some (Sum.inr c) => some c
          | _ => none)) := by
  induction raw with
  | nil => rfl
  | cons e rest ih =>
    simp only [_get_events_exact, ih, List.filterMap_cons]
    rcases hstep : exactEventStep now e with _ | c
    · simp [hstep]
    · rcases c with c | c <;> simp [hstep]

/-- An event with an absent or zero timestamp is classified as `none`. -/
lemma exactEventStep_none_of_falsy (now : Int) (e : RawEvent)
    (h : e.startTime = none ∨ e.startTime = some 0 ∨ e.endTime = none ∨ e.endTime = some 0) :
    exactEventStep now e = none := by
  obtain ⟨n, m, st, et, ts⟩ := e
  rcases h with h | h | h | h <;> simp only at h <;> subst h <;>
    first
      | (cases et <;> simp [exactEventStep])
      | (cases st <;> simp [exactEventStep])

/-- C3: for every event with present, truthy `startTime` and `endTime`, the
exact evaluator is a trichotomy — active with time left `end - now` when
`start <= now < end`, upcoming with time left `start - now` when
`start > now`, dropped otherwise — and each output bucket is the
order-preserving `filterMap` of this per-event classification over the
batch. -/
theorem C3_exact_trichotomy (now : Int) (s t : Int) (e : RawEvent)
    (hs : e.startTime = some s) (ht : e.endTime = some t) (hs0 : s ≠ 0) (ht0 : t ≠ 0) :
    ((s ≤ now ∧ now < t) →
      exactEventStep now e = some (Sum.inl ⟨e.name.getD "Unknown Event",
        e.map.getD "Unknown Location", formatDuration (Int.tdiv (t - now) 1000)⟩)) ∧
    (¬(s ≤ now ∧ now < t) → s > now →
      exactEventStep now e = some (Sum.inr ⟨e.name.getD "Unknown Event",
        e.map.getD "Unknown Location", formatDuration (Int.tdiv (s - now) 1000)⟩)) ∧
    (¬(s ≤ now ∧ now < t) → ¬(s > now) → exactEventStep now e = none) ∧
    (∀ raw : List RawEvent,
      (_get_events_exact now raw).1 = raw.filterMap (fun x =>
        match exactEventStep now x with
        | some (Sum.inl c) => some c
        | _ => none) ∧
      (_get_events_exact now raw).2 = raw.filterMap (fun x =>
        match exactEventStep now x with
        | some (Sum.inr c) => some c
        | _ => none)) := by
  refine ⟨?_, ?_, ?_, ?_⟩
  · intro h1
    simp [exactEventStep, hs, ht, hs0, ht0, h1]
    rfl
  · intro h1 h2
    simp [exactEventStep, hs, ht, hs0, ht0, h1, h2]
    rfl
  · intro h1 h2
    simp [exactEventStep, hs, ht, hs0, ht0, h1, h2]
  · intro raw
    rw [get_events_exact_eq_filterMap]
    exact ⟨rfl, rfl⟩

/-- C3 witness: the active case at `start = 1000`, `end = 61000`,
`now = 2000` (milliseconds), giving 59 whole seconds left. -/
theorem C3_exact_trichotomy_witness :
    exactEventStep 2000 ⟨some "A", some "B", some 1000, some 61000, none⟩ =
      some (Sum.inl ⟨"A", "B", "59с"⟩) := by
  have h := (C3_exact_trichotomy 2000 1000 61000 ⟨some "A", some "B", some 1000, some 61000, none⟩
    rfl rfl (by decide) (by decide)).1 (by decide)
  rw [h]
  decide

/-- C7: an event whose `startTime` or `endTime` is absent or falsy (the
integer 0 included) contributes to neither bucket, and every other event of
the batch is classified exactly as in the batch without it. -/
theorem C7_faulty_event_skipped (now : Int) (e : RawEvent) (l1 l2 : List RawEvent)
    (h : e.startTime = none ∨ e.startTime = some 0 ∨ e.endTime = none ∨ e.endTime = some 0) :
    _get_events_exact now (l1 ++ e :: l2) = _get_events_exact now (l1 ++ l2) := by
  have hstep := exactEventStep_none_of_falsy now e h
  rw [get_events_exact_eq_filterMap, get_events_exact_eq_filterMap]
  simp [List.filterMap_append, hstep]

/-- C7 witness: a batch with one valid event and one event missing its
`startTime` equals the batch without the faulty event, and evaluates to one
active entry. -/
theorem C7_faulty_event_skipped_witness :
    _get_events_exact 2000 ([⟨some "A", some "B", some 1000, some 61000, none⟩] ++
        (⟨some "X", none, none, some 5, none⟩ : RawEvent) :: []) =
      _get_events_exact 2000 ([⟨some "A", some "B", some 1000, some 61000, none⟩] ++ []) ∧
    _get_events_exact 2000 ([⟨some "A", some "B", some 1000, some 61000, none⟩] ++ []) =
      ([⟨"A", "B", "59с"⟩], []) :=
  ⟨C7_faulty_event_skipped 2000 ⟨some "X", none, none, some 5, none⟩
      [⟨some "A", some "B", some 1000, some 61000, none⟩] [] (Or.inl rfl),
    by decide⟩

/-- C8 counterexample: an event with a missing `name` and missing `map` is
not skipped — it is classified into the active bucket with the defaults
"Unknown Event"/"Unknown Location", contradicting the claim that every
missing field causes a skip. -/
theorem C8_missing_name_counterexample :
    _get_events_exact 5000 [⟨none, none, some 1000, some 11000, none⟩] =
      ([⟨"Unknown Event", "Unknown Location", "6с"⟩], []) := by decide

/-- C8 amended: a missing `startTime` or `endTime` skips an exact event
without affecting the rest of the batch, and a missing `start` or `end`
string skips a daily window; but a missing `name` or `map` does not cause a
skip — the defaults "Unknown Event"/"Unknown Location" are substituted and
the event is classified exactly as if those defaults had been present. -/
theorem C8_skip_semantics (now : Int) (now_sod : Nat) (n l : String) (e : RawEvent)
    (tw : TimeWindow) (st : DailyState) (l1 l2 : List RawEvent)
    (he : e.startTime = none ∨ e.endTime = none)
    (htw : tw.start = none ∨ tw.end_ = none) :
    _get_events_exact now (l1 ++ e :: l2) = _get_events_exact now (l1 ++ l2) ∧
    scheduleWindowStep now_sod n l tw st = st ∧
    (∀ e' : RawEvent, exactEventStep now e' =
      exactEventStep now { e' with name := some (e'.name.getD "Unknown Event"),
                                   map := some (e'.map.getD "Unknown Location") }) := by
  refine ⟨?_, ?_, ?_⟩
  · have hstep : exactEventStep now e = none := by
      apply exactEventStep_none_of_falsy
      rcases he with h | h
      · exact Or.inl h
      · exact Or.inr (Or.inr (Or.inl h))
    rw [get_events_exact_eq_filterMap, get_events_exact_eq_filterMap]
    simp [List.filterMap_append, hstep]
  · rcases tw with ⟨a, b⟩
    rcases htw with h | h <;> simp only at h <;> subst h
    · rfl
    · cases a <;> rfl
  · intro e'
    rfl

/-- C8 witness: the hypotheses discharged at an event with `startTime`
absent and a window with `start` absent. -/
theorem C8_skip_semantics_witness :
    _get_events_exact 5000 ([] ++ (⟨some "N", some "L", none, some 11000, none⟩ : RawEvent) :: []) =
      _get_events_exact 5000 ([] ++ []) :=
  (C8_skip_semantics 5000 0 "N" "L" ⟨some "N", some "L", none, some 11000, none⟩
    ⟨none, some "10:00"⟩ ⟨none, [], []⟩ [] [] (Or.inl rfl) (Or.inl rfl)).1

/-- C6: on any fetch or decode failure the dispatcher returns two empty
buckets; a non-empty result whose first element has both `startTime` and
`endTime` keys is routed whole to the exact evaluator regardless of later
elements; otherwise a first element with a `times` key routes the whole list
to the daily evaluator; an empty list or an unrecognized first-element shape
yields two empty buckets. -/
theorem C6_dispatcher_routing (now_ms : Int) (now_sod : Nat) :
    (∀ m, get_arc_raiders_events_from_api_schedule now_ms now_sod (.failure m) = ([], [])) ∧
    get_arc_raiders_events_from_api_schedule now_ms now_sod (.success []) = ([], []) ∧
    (∀ (first : RawEvent) (rest : List RawEvent),
      first.startTime.isSome → first.endTime.isSome →
      get_arc_raiders_events_from_api_schedule now_ms now_sod (.success (first :: rest)) =
        _get_events_exact now_ms (first :: rest)) ∧
    (∀ (first : RawEvent) (rest : List RawEvent),
      ¬(first.startTime.isSome ∧ first.endTime.isSome) → first.times.isSome →
      get_arc_raiders_events_from_api_schedule now_ms now_sod (.success (first :: rest)) =
        _get_events_schedule now_sod (first :: rest)) ∧
    (∀ (first : RawEvent) (rest : List RawEvent),
      ¬(first.startTime.isSome ∧ first.endTime.isSome) → ¬first.times.isSome →
      get_arc_raiders_events_from_api_schedule now_ms now_sod (.success (first :: rest)) =
        ([], [])) := by
  refine ⟨fun m => rfl, rfl, ?_, ?_, ?_⟩
  · intro first rest h1 h2
    simp [get_arc_raiders_events_from_api_schedule, fetchSchedule, h1, h2]
  · intro first rest h1 h2
    simp [get_arc_raiders_events_from_api_schedule, fetchSchedule, h1, h2]
  · intro first rest h1 h2
    simp [get_arc_raiders_events_from_api_schedule, fetchSchedule, h1, h2]

/-- The same-day-active formatting block is the shared formatter. -/
lemma daily_sameday_eq_format (d : Int) : time_left_str_daily_sameday d = formatDuration d := rfl

/-- The overnight-active formatting block is the shared formatter. -/
lemma daily_overnight_eq_format (d : Int) : time_left_str_daily_overnight d = formatDuration d := rfl

/-- The daily-upcoming formatting block is the shared formatter. -/
lemma daily_upcoming_eq_format (d : Int) : time_left_str_daily_upcoming d = formatDuration d := rfl

/-- A string that parses as HH:MM is not empty. -/
lemma parseHHMM_ne_empty {s : String} {v : Nat} (h : parseHHMM s = some v) : s ≠ "" := by
  intro he
  rw [he] at h
  rw [show parseHHMM "" = none from by decide] at h
  exact Option.noConfusion h

/-- A string that parses as HH:MM is not the "24:00" sentinel. -/
lemma parseHHMM_ne_sentinel {s : String} {v : Nat} (h : parseHHMM s = some v) : s ≠ "24:00" := by
  intro he
  rw [he] at h
  rw [show parseHHMM "24:00" = none from by decide] at h
  exact Option.noConfusion h

/-- C2: an overnight window (parseable HH:MM start and end with
`start > end`, non-sentinel) is active iff `now >= start` or `now < end`;
when active the effective end instant is today's end if `now < end` and
tomorrow's end otherwise; when not active the next start is today's start if
`now < start` and `now >= end`, otherwise tomorrow's start; the time left is
the formatted difference to that instant.  The window's contribution appends
to the incoming buckets and is the same for every prior state. -/
theorem C2_overnight_window (now_sod : Nat) (name location start_str end_str : String)
    (start_time end_time : Nat) (st : DailyState)
    (hs : parseHHMM start_str = some start_time)
    (he : parseHHMM end_str = some end_time)
    (hlt : end_time < start_time)
    (hn : now_sod < 86400) :
    (scheduleWindowStep now_sod name location ⟨some start_str, some end_str⟩ st).active =
      st.active ++
        (if now_sod ≥ start_time * 60 ∨ now_sod < end_time * 60 then
          [⟨name, location, formatDuration
            (if now_sod < end_time * 60 then (end_time * 60 : Int) - now_sod
             else (86400 + end_time * 60 : Int) - now_sod)⟩]
         else []) ∧
    (scheduleWindowStep now_sod name location ⟨some start_str, some end_str⟩ st).upcoming =
      st.upcoming ++
        (if now_sod ≥ start_time * 60 ∨ now_sod < end_time * 60 then []
         else
          [⟨name, location, formatDuration
            (if now_sod < start_time * 60 ∧ now_sod ≥ end_time * 60 then
               (start_time * 60 : Int) - now_sod
             else (86400 + start_time * 60 : Int) - now_sod)⟩]) := by
  have hne : start_str ≠ "" := parseHHMM_ne_empty hs
  have hne2 : end_str ≠ "" := parseHHMM_ne_empty he
  have h24 : end_str ≠ "24:00" := parseHHMM_ne_sentinel he
  have hcmp : ¬(start_time ≤ end_time) := by omega
  by_cases ha : start_time * 60 ≤ now_sod
  · have hb : ¬ now_sod < end_time * 60 := by omega
    constructor <;>
      simp [scheduleWindowStep, hs, he, hne, hne2, h24, hcmp, ha, hb,
        pushActive, pushUpcoming, ge_iff_le,
        daily_sameday_eq_format, daily_overnight_eq_format, daily_upcoming_eq_format]
  · by_cases hb : now_sod < end_time * 60
    · constructor <;>
        simp [scheduleWindowStep, hs, he, hne, hne2, h24, hcmp, ha, hb,
          pushActive, pushUpcoming, ge_iff_le,
        daily_sameday_eq_format, daily_overnight_eq_format, daily_upcoming_eq_format]
    · have hc : now_sod < start_time * 60 := by omega
      have hd : end_time * 60 ≤ now_sod := by omega
      constructor <;>
        simp [scheduleWindowStep, hs, he, hne, hne2, h24, hcmp, ha, hb, hc, hd,
          pushActive, pushUpcoming, ge_iff_le,
        daily_sameday_eq_format, daily_overnight_eq_format, daily_upcoming_eq_format]

/-- C2 witness: the window 23:00-01:00 evaluated at 00:30 is active with 30
minutes left (to 01:00 of the same calendar day). -/
theorem C2_overnight_window_witness :
    (scheduleWindowStep 1800 "Night Raid" "Dam" ⟨some "23:00", some "01:00"⟩
        ⟨none, [], []⟩).active = [⟨"Night Raid", "Dam", "30м"⟩] := by
  have h := (C2_overnight_window 1800 "Night Raid" "Dam" "23:00" "01:00" 1380 60
    ⟨none, [], []⟩ (by decide) (by decide) (by decide) (by decide)).1
  rw [h]
  decide

/-- C4 amended: a window whose end string is not the "24:00" sentinel
contributes to the buckets independently of everything else in the batch —
its appended entries equal its contribution from the pristine state, for
every prior state (so other windows and events cannot change it).  Sentinel
windows are excluded: their contribution depends on whether any earlier
window of the batch assigned `end_time_for_comparison`. -/
theorem C4_nonsentinel_window_independent (now_sod : Nat) (name location : String)
    (tw : TimeWindow) (st : DailyState)
    (h24 : tw.end_ ≠ some "24:00") :
    (scheduleWindowStep now_sod name location tw st).active =
      st.active ++ (scheduleWindowStep now_sod name location tw ⟨none, [], []⟩).active ∧
    (scheduleWindowStep now_sod name location tw st).upcoming =
      st.upcoming ++ (scheduleWindowStep now_sod name location tw ⟨none, [], []⟩).upcoming := by
  rcases tw with ⟨ts, te⟩
  cases ts with
  | none => exact ⟨by simp [scheduleWindowStep], by simp [scheduleWindowStep]⟩
  | some ss =>
    cases te with
    | none => exact ⟨by simp [scheduleWindowStep], by simp [scheduleWindowStep]⟩
    | some es =>
      have hne : es ≠ "24:00" := by
        intro hh
        exact h24 (by rw [hh])
      by_cases h0 : ss = "" ∨ es = ""
      · exact ⟨by simp [scheduleWindowStep, h0], by simp [scheduleWindowStep, h0]⟩
      · cases hps : parseHHMM ss with
        | none =>
          exact ⟨by simp [scheduleWindowStep, h0, hps], by simp [scheduleWindowStep, h0, hps]⟩
        | some stt =>
          cases hpe : parseHHMM es with
          | none =>
            exact ⟨by simp [scheduleWindowStep, h0, hps, hpe, hne],
              by simp [scheduleWindowStep, h0, hps, hpe, hne]⟩
          | some ett =>
            constructor <;>
              (simp only [scheduleWindowStep, h0, hps, hpe, hne, if_false, ite_false]
               split_ifs <;> simp [pushActive, pushUpcoming])

/-- C4 witness: the non-sentinel hypothesis discharged at the window
23:00-01:00 over a non-trivial prior state. -/
theorem C4_nonsentinel_window_independent_witness :
    (scheduleWindowStep 1800 "N" "L" ⟨some "23:00", some "01:00"⟩
        ⟨some 300, [⟨"P", "Q", "5с"⟩], []⟩).active =
      [⟨"P", "Q", "5с"⟩] ++ (scheduleWindowStep 1800 "N" "L" ⟨some "23:00", some "01:00"⟩
        ⟨none, [], []⟩).active :=
  (C4_nonsentinel_window_independent 1800 "N" "L" ⟨some "23:00", some "01:00"⟩
    ⟨some 300, [⟨"P", "Q", "5с"⟩], []⟩ (by decide)).1

/-- C4 counterexample: the same window {start 10:00, end "24:00"} of the
same event at the same instant (23:59) contributes nothing when it is the
first window of the batch but an active "1м" entry when another window
precedes it — its contribution is not a function of the window, event and
instant alone. -/
theorem C4_sentinel_state_leak_counterexample :
    _get_events_schedule 86340 [⟨some "E", some "M", none, none,
        some [⟨some "10:00", some "24:00"⟩]⟩] = ([], []) ∧
    _get_events_schedule 86340 [⟨some "E", some "M", none, none,
        some [⟨some "01:00", some "02:00"⟩, ⟨some "10:00", some "24:00"⟩]⟩] =
      ([⟨"E", "M", "1м"⟩], [⟨"E", "M", "1ч 1м"⟩]) := by
  constructor <;> decide

/-- C1: the window {start "10:00", end "24:00"} evaluated as the first (and
only) window of the batch is skipped entirely — at 23:59 the claim expects
an active entry with "1м" left and at 09:00 an upcoming entry with "1ч",
but both buckets come back empty, because line 163 reads the never-assigned
`end_time_for_comparison` and the resulting `UnboundLocalError` is caught as
a parse error. -/
theorem C1_sentinel_first_window_dropped :
    _get_events_schedule 86340 [⟨some "Harvester", some "Dam", none, none,
        some [⟨some "10:00", some "24:00"⟩]⟩] = ([], []) ∧
    _get_events_schedule 32400 [⟨some "Harvester", some "Dam", none, none,
        some [⟨some "10:00", some "24:00"⟩]⟩] = ([], []) := by
  constructor <;> decide
